import Mathlib

/-!
Shallow embedding of the Changelog-Weaver hierarchical work-item aggregation
engine (src/changelog_weaver/work.py together with the data model of
src/changelog_weaver/typings/base_types.py and the configuration gate of
src/changelog_weaver/configuration/config.py).

Modelling conventions:
* Python `dict` (the Store `Work.all`) is an insertion-ordered association
  list `List (Int × HierarchicalWorkItem)`; all operations act on the first
  occurrence of a key, mirroring the unique-key dictionary.
* Python objects are shared by reference; the Store plays the role of the
  heap, so the `children` list of an item and the `parent` back-reference
  hold item identities rather than item values.
* `async` methods that call the external platform client or the summarizer
  become functions over an oracle `Int → Except String _` (respectively
  `String → Except String String`); an exception raised through
  `asyncio.gather` is an `Except.error` result.  The unbounded ancestor
  walk of `_fetch_parents` is given explicit fuel; `none` means the fuel
  ran out before the walk finished (the Python loop would still be running).
* Machine integers are `Int` (Python ints are unbounded; `hash` of a string
  may be negative).
-/

namespace ChangelogWeaver

/-- Platform enum from src/changelog_weaver/typings/base_types.py. -/
inductive Platform where
  | AZURE_DEVOPS
  | GITHUB
deriving DecidableEq, Repr

/-- CommitInfo dataclass from base_types.py. -/
structure CommitInfo where
  sha : String
  message : String
  author : String
  date : String
  url : String
deriving DecidableEq, Repr

/-- WorkItem dataclass from base_types.py, merged with the `children` list that
HierarchicalWorkItem (src/changelog_weaver/typings, referenced by work.py)
adds on top of it; `HierarchicalWorkItem(**work_item.__dict__)` is the
identity on this merged representation.  `children` and `parent` hold item
identities because in Python they are references into the shared Store. -/
structure HierarchicalWorkItem where
  id : Int
  type : String
  state : String
  title : String
  icon : String
  root : Bool
  orphan : Bool
  parent_id : Int := 0
  parent : Option Int := none
  comment_count : Int := 0
  story_points : Option Int := none
  summary : Option String := none
  priority : Option Int := none
  description : Option String := none
  repro_steps : Option String := none
  acceptance_criteria : Option String := none
  tags : List String := []
  url : String := ""
  sha : Option String := none
  author : Option String := none
  date : Option String := none
  comments : List String := []
  children : List Int := []
deriving DecidableEq, Repr

/-- WorkItemGroup from src/changelog_weaver/typings: a type label, an icon and
the group's member items.  The members are item values (commit groups hold
items that never enter the Store). -/
structure WorkItemGroup where
  type : String
  icon : String
  items : List HierarchicalWorkItem
deriving DecidableEq, Repr

/-- The Store `Work.all : Dict[int, HierarchicalWorkItem]` as an
insertion-ordered association list. -/
abbrev Store := List (Int × HierarchicalWorkItem)

/-- Dictionary lookup `self.all[k]` / `k in self.all` (first occurrence). -/
def storeLookup : Store → Int → Option HierarchicalWorkItem
  | [], _ => none
  | (k', it) :: rest, k => if k' = k then some it else storeLookup rest k

/-- Key-membership test `k in self.all`. -/
def storeContains (s : Store) (k : Int) : Bool :=
  (storeLookup s k).isSome

/-- The values view `self.all.values()`, in insertion order. -/
def storeValues (s : Store) : List HierarchicalWorkItem :=
  s.map Prod.snd

/-- Dictionary assignment `self.all[k] = v`: replace the first binding of `k`
in place (Python dicts keep the original insertion position), append a fresh
binding otherwise. -/
def storeSet : Store → Int → HierarchicalWorkItem → Store
  | [], k, v => [(k, v)]
  | (k', it) :: rest, k, v =>
    if k' = k then (k', v) :: rest else (k', it) :: storeSet rest k v

/-- In-place mutation of the object stored under `k` (attribute assignment on
a shared reference), a no-op when `k` is absent. -/
def storeModify : Store → Int → (HierarchicalWorkItem → HierarchicalWorkItem) → Store
  | [], _, _ => []
  | (k', it) :: rest, k, f =>
    if k' = k then (k', f it) :: rest else (k', it) :: storeModify rest k f

/-- Work.add (work.py lines 124-129): insert by identity if absent, return the
stored entry. -/
def add (s : Store) (w : HierarchicalWorkItem) : Store × HierarchicalWorkItem :=
  match storeLookup s w.id with
  | some existing => (s, existing)
  | none => (s ++ [(w.id, w)], w)

/-- Well-formedness a Python dict keyed by `item.id` guarantees: bindings have
pairwise distinct keys and each value carries its key as its `id`. -/
def StoreWF (s : Store) : Prop :=
  (s.map Prod.fst).Nodup ∧ ∀ p ∈ s, (p.2).id = p.1

instance (s : Store) : Decidable (StoreWF s) := by
  unfold StoreWF; infer_instance

/-! Basic Store lemmas. -/

theorem storeLookup_append_of_eq_some {s : Store} {k : Int}
    {v : HierarchicalWorkItem} (t : Store) (h : storeLookup s k = some v) :
    storeLookup (s ++ t) k = some v := by
  induction s with
  | nil => simp [storeLookup] at h
  | cons p rest ih =>
    obtain ⟨k', it⟩ := p
    by_cases hk : k' = k
    · simp [storeLookup, hk] at h ⊢; exact h
    · simp [storeLookup, hk] at h ⊢; exact ih h

theorem storeLookup_append_self {s : Store} {k : Int}
    (v : HierarchicalWorkItem) (h : storeLookup s k = none) :
    storeLookup (s ++ [(k, v)]) k = some v := by
  induction s with
  | nil => simp [storeLookup]
  | cons p rest ih =>
    obtain ⟨k', it⟩ := p
    by_cases hk : k' = k
    · simp [storeLookup, hk] at h
    · simp [storeLookup, hk] at h ⊢; exact ih h

theorem storeContains_append {s : Store} {k : Int} (t : Store)
    (h : storeContains s k = true) : storeContains (s ++ t) k = true := by
  unfold storeContains at h ⊢
  obtain ⟨v, hv⟩ := Option.isSome_iff_exists.mp h
  rw [storeLookup_append_of_eq_some t hv]; rfl

theorem storeValues_append (s t : Store) :
    storeValues (s ++ t) = storeValues s ++ storeValues t := by
  simp [storeValues]

theorem storeLookup_set_self (s : Store) (k : Int) (v : HierarchicalWorkItem) :
    storeLookup (storeSet s k v) k = some v := by
  induction s with
  | nil => simp [storeSet, storeLookup]
  | cons p rest ih =>
    obtain ⟨k', it⟩ := p
    by_cases hk : k' = k
    · simp [storeSet, hk, storeLookup]
    · simp [storeSet, hk, storeLookup, ih]

theorem storeLookup_set_ne (s : Store) {k k' : Int}
    (v : HierarchicalWorkItem) (h : k' ≠ k) :
    storeLookup (storeSet s k v) k' = storeLookup s k' := by
  induction s with
  | nil => simp [storeSet, storeLookup, Ne.symm h]
  | cons p rest ih =>
    obtain ⟨k0, it⟩ := p
    by_cases hk : k0 = k
    · subst hk
      simp [storeSet, storeLookup, Ne.symm h]
    · simp only [storeSet, if_neg hk, storeLookup]
      by_cases hk' : k0 = k'
      · simp [hk']
      · simp [hk', ih]

theorem storeLookup_modify_self (s : Store) (k : Int)
    (f : HierarchicalWorkItem → HierarchicalWorkItem) :
    storeLookup (storeModify s k f) k = (storeLookup s k).map f := by
  induction s with
  | nil => simp [storeModify, storeLookup]
  | cons p rest ih =>
    obtain ⟨k', it⟩ := p
    by_cases hk : k' = k
    · simp [storeModify, hk, storeLookup]
    · simp [storeModify, hk, storeLookup, ih]

theorem storeLookup_modify_ne (s : Store) {k k' : Int}
    (f : HierarchicalWorkItem → HierarchicalWorkItem) (h : k' ≠ k) :
    storeLookup (storeModify s k f) k' = storeLookup s k' := by
  induction s with
  | nil => simp [storeModify, storeLookup]
  | cons p rest ih =>
    obtain ⟨k0, it⟩ := p
    by_cases hk : k0 = k
    · subst hk
      simp [storeModify, storeLookup, Ne.symm h]
    · simp only [storeModify, if_neg hk, storeLookup]
      by_cases hk' : k0 = k'
      · simp [hk']
      · simp [hk', ih]

theorem storeLookup_of_mem_wf {s : Store} (hwf : StoreWF s)
    {p : Int × HierarchicalWorkItem} (hp : p ∈ s) :
    storeLookup s p.1 = some p.2 := by
  induction s with
  | nil => simp at hp
  | cons q rest ih =>
    obtain ⟨k0, it0⟩ := q
    rcases List.mem_cons.mp hp with hp | hp
    · subst hp; simp [storeLookup]
    · have hk : k0 ≠ p.1 := by
        intro hk
        have : p.1 ∈ rest.map Prod.fst := List.mem_map_of_mem Prod.fst hp
        rw [← hk] at this
        exact (List.nodup_cons.mp hwf.1).1 this
      have hwf' : StoreWF rest :=
        ⟨(List.nodup_cons.mp hwf.1).2, fun q hq => hwf.2 q (List.mem_cons_of_mem _ hq)⟩
      simp [storeLookup, hk]
      exact ih hwf' hp

theorem storeLookup_value_of_mem {s : Store} (hwf : StoreWF s)
    {it : HierarchicalWorkItem} (hit : it ∈ storeValues s) :
    storeLookup s it.id = some it := by
  obtain ⟨p, hp, hsnd⟩ := List.mem_map.mp hit
  have hid : it.id = p.1 := by rw [← hsnd]; exact hwf.2 p hp
  rw [hid, ← hsnd]
  exact storeLookup_of_mem_wf hwf hp

/-! The platform client and the fetch-driven operations of `Work`. -/

/-- Work.get_item_by_id (work.py lines 131-134): fetch a single item from the
platform client and insert it into the Store via `add`.  The client call is
an oracle `Int → Except String HierarchicalWorkItem`; a raised exception is
`Except.error`. -/
def get_item_by_id (fetch : Int → Except String HierarchicalWorkItem)
    (s : Store) (item_id : Int) :
    Except String (Store × HierarchicalWorkItem) :=
  match fetch item_id with
  | .error e => .error e
  | .ok item => .ok (add s item)

/-- Python set.add on the `items_to_fetch` set, represented as a
duplicate-free list in insertion order. -/
def setInsert (s : List Int) (x : Int) : List Int :=
  if x ∈ s then s else s ++ [x]

/-- The inner while loop of Work._fetch_parents (work.py lines 228-232):
starting from `cur`, while the current item has a non-zero parent identity
missing from the Store, record it in `items_to_fetch`, fetch it, add it to
the Store and continue the walk from the fetched parent.  The walk is given
explicit fuel; the result is `none` when the fuel is exhausted before the
loop condition fails (the Python loop would still be running). -/
def walkChain (fetch : Int → Except String HierarchicalWorkItem) :
    Nat → Store → List Int → HierarchicalWorkItem →
    Except String (Option (Store × List Int))
  | 0, _, _, _ => .ok none
  | fuel + 1, s, toFetch, cur =>
    if cur.parent_id ≠ 0 ∧ storeContains s cur.parent_id = false then
      match get_item_by_id fetch s cur.parent_id with
      | .error e => .error e
      | .ok (s', next) => walkChain fetch fuel s' (setInsert toFetch cur.parent_id) next
    else
      .ok (some (s, toFetch))

/-- The outer for loop of Work._fetch_parents (work.py lines 227-232): walk
the ancestor chain of every item of the snapshot `items_list` taken before
the loop, threading the Store and the `items_to_fetch` set. -/
def fetchParentsLoop (fetch : Int → Except String HierarchicalWorkItem)
    (fuel : Nat) :
    List HierarchicalWorkItem → Store → List Int →
    Except String (Option (Store × List Int))
  | [], s, toFetch => .ok (some (s, toFetch))
  | item :: rest, s, toFetch =>
    match walkChain fetch fuel s toFetch item with
    | .error e => .error e
    | .ok none => .ok none
    | .ok (some (s', toFetch')) => fetchParentsLoop fetch fuel rest s' toFetch'

/-- One `asyncio.gather` wave of parent fetches (work.py line 237-238):
each `get_item_by_id` inserts into the Store keyed by the item's own id, so
any sequential order of the gathered coroutines yields the same Store; the
list order is the chosen linearization. -/
def fetchIds (fetch : Int → Except String HierarchicalWorkItem) :
    Store → List Int → Except String Store
  | s, [] => .ok s
  | s, k :: rest =>
    match get_item_by_id fetch s k with
    | .error e => .error e
    | .ok (s', _) => fetchIds fetch s' rest

/-- Batch slicing `list(items_to_fetch)[i : i + batch_size]` of work.py lines
235-236, with fuel equal to the list length. -/
def chunkGo (n : Nat) : Nat → List Int → List (List Int)
  | 0, _ => []
  | _ + 1, [] => []
  | fuel + 1, x :: xs => (x :: xs).take n :: chunkGo n fuel ((x :: xs).drop n)

/-- The fixed-size batches dispatched by Work._fetch_parents. -/
def chunkList (n : Nat) (l : List Int) : List (List Int) :=
  chunkGo n l.length l

/-- The batch_size = 10 of work.py line 234. -/
def batchSize : Nat := 10

/-- The wave-after-wave dispatch of the accumulated `items_to_fetch` set
(work.py lines 235-238). -/
def fetchChunks (fetch : Int → Except String HierarchicalWorkItem) :
    Store → List (List Int) → Except String Store
  | s, [] => .ok s
  | s, c :: rest =>
    match fetchIds fetch s c with
    | .error e => .error e
    | .ok s' => fetchChunks fetch s' rest

/-- Work._fetch_parents (work.py lines 221-240): a no-op on platforms other
than Azure DevOps; otherwise walk every snapshot item's ancestor chain
(fetching and inserting missing ancestors on the way), then re-dispatch the
accumulated `items_to_fetch` identities in batches of `batchSize`. -/
def fetch_parents (platform : Platform)
    (fetch : Int → Except String HierarchicalWorkItem) (fuel : Nat)
    (s : Store) : Except String (Option Store) :=
  if platform ≠ Platform.AZURE_DEVOPS then .ok (some s)
  else
    match fetchParentsLoop fetch fuel (storeValues s) s [] with
    | .error e => .error e
    | .ok none => .ok none
    | .ok (some (s', toFetch)) =>
      match fetchChunks fetch s' (chunkList batchSize toFetch) with
      | .error e => .error e
      | .ok s'' => .ok (some s'')

/-! Work._create_other_parent. -/

/-- Icon URL of the synthetic "Other" parent (work.py line 259). -/
def tfsOtherIconUrl : String :=
  "https://tfsproduks1.visualstudio.com/_apis/wit/workItemIcons/icon_review?color=333333&v=2"

/-- The synthetic "Other" parent record of work.py lines 250-260, before its
children are attached. -/
def otherParentBase : HierarchicalWorkItem :=
  { type := "Other"
    root := true
    orphan := false
    id := 0
    title := "Other"
    state := "Other"
    comment_count := 0
    parent_id := 0
    icon := tfsOtherIconUrl }

/-- The orphan selection of work.py lines 245-247: every stored item flagged
orphan whose identity is not 0, in Store insertion order. -/
def orphanedItems (s : Store) : List HierarchicalWorkItem :=
  (storeValues s).filter (fun it => it.orphan && it.id != 0)

/-- The field assignment `item.parent_id = 0` applied to a shared reference. -/
def setParentZero (it : HierarchicalWorkItem) : HierarchicalWorkItem :=
  { it with parent_id := 0 }

/-- The reparenting loop of work.py lines 263-264: `item.parent_id = 0` for
each orphaned item; the items are shared references into the Store, so the
mutation is an update of the Store entry under the item's identity. -/
def reparentAll : Store → List Int → Store
  | s, [] => s
  | s, k :: rest => reparentAll (storeModify s k setParentZero) rest

/-- Work._create_other_parent (work.py lines 242-264): skipped on GitHub;
otherwise, when the orphan set is non-empty, build the "Other" node with the
orphan set as its children, store it under identity 0, and reassign every
orphaned item's parent identity to 0. -/
def create_other_parent (platform : Platform) (s : Store) : Store :=
  if platform = Platform.GITHUB then s
  else if orphanedItems s = [] then s
  else
    reparentAll
      (storeSet s 0
        { otherParentBase with children := (orphanedItems s).map (·.id) })
      ((orphanedItems s).map (·.id))

/-! Summarization (Work.summarize_work_item and the pass dispatched by
Work.get_items_with_details). -/

/-- Python str.lower() for the ASCII type tags the engine compares, defined
by structural recursion over the character list. -/
def pyLower (s : String) : String :=
  String.mk (s.data.map Char.toLower)

/-- Python str() of an Optional[str]: `None` renders as "None". -/
def pyOptStr : Option String → String
  | none => "None"
  | some s => s

/-- Python str() of a list of strings, as interpolated by an f-string. -/
def pyStrListRepr (l : List String) : String :=
  "[" ++ String.intercalate ", " (l.map (fun s => "'" ++ s ++ "'")) ++ "]"

/-- Work.summarize_work_item (work.py lines 83-108): return commit items
unchanged before anything else, return the item unchanged when item-level
summarization is disabled, otherwise call the summarizer on the assembled
prompt and attach the result as the item's summary. -/
def summarize_work_item (item_summary : Bool) (item_prompt : String)
    (summarise : String → Except String String)
    (wi : HierarchicalWorkItem) : Except String HierarchicalWorkItem :=
  if pyLower wi.type == "commit" then .ok wi
  else if !item_summary then .ok wi
  else
    match summarise (item_prompt ++ ": " ++ wi.title ++ " item type: " ++
        wi.type ++ " " ++ pyOptStr wi.description ++ " " ++
        pyStrListRepr wi.comments) with
    | .error e => .error e
    | .ok s => .ok { wi with summary := some s }

/-- The summarization candidate list built by Work.get_items_with_details
(work.py lines 169-173): every Store value whose id is among the initially
fetched `item_ids` and whose type is not "commit" case-insensitively. -/
def summaryCandidates (s : Store) (item_ids : List Int) :
    List HierarchicalWorkItem :=
  (storeValues s).filter
    (fun it => item_ids.contains it.id && pyLower it.type != "commit")

/-- The gathered summarization tasks (work.py line 174): each task rewrites
the summary of a shared Store object in place; tasks touch pairwise distinct
identities, so the sequential fold is a sound linearization of the gather. -/
def summaryFold (item_summary : Bool) (item_prompt : String)
    (summarise : String → Except String String) :
    Store → List HierarchicalWorkItem → Except String Store
  | s, [] => .ok s
  | s, it :: rest =>
    match summarize_work_item item_summary item_prompt summarise it with
    | .error e => .error e
    | .ok wi => summaryFold item_summary item_prompt summarise (storeSet s wi.id wi) rest

/-- The configuration-gated summarization pass of work.py lines 168-174. -/
def summaryPass (item_summary : Bool) (item_prompt : String)
    (summarise : String → Except String String) (s : Store)
    (item_ids : List Int) : Except String Store :=
  if item_summary then
    summaryFold item_summary item_prompt summarise s (summaryCandidates s item_ids)
  else .ok s

/-! The Hierarchy builder consumed on the Azure DevOps branch. -/

/-- The distinct values of a list in first-seen order. -/
def distinctFirstSeen : List String → List String
  | [] => []
  | t :: rest => t :: (distinctFirstSeen rest).filter (fun x => x ≠ t)

/-- Modelled from the spec: the root-item list of the Hierarchy class
(src/changelog_weaver/utilities, not part of the sources at hand), per
spec section 4.4 — "the ordered list of root items (items with root = true
or whose parent is the orphan bucket)". -/
def hierarchyRootItems (s : Store) : List HierarchicalWorkItem :=
  (storeValues s).filter (fun it => it.root || it.parent_id == 0)

/-- Modelled from the spec: the by_type grouping of the Hierarchy class
(src/changelog_weaver/utilities, not part of the sources at hand), per spec
section 4.4 — "one per distinct type value observed among roots", in
first-seen-type order, "each carrying that type's icon and the ordered list
of that type's root-level items". -/
def hierarchyByType (s : Store) : List WorkItemGroup :=
  let roots := hierarchyRootItems s
  (distinctFirstSeen (roots.map (·.type))).map (fun t =>
    { type := t
      icon := (((roots.find? (fun r => r.type == t)).map (·.icon)).getD "")
      items := roots.filter (fun r => r.type == t) })

/-- The GitHub branch of the grouping step (work.py lines 181-186): one
WorkItemGroup per root item, carrying that root's type, icon and children.
The children are references into the Store and are dereferenced here. -/
def githubByType (s : Store) (root_items : List HierarchicalWorkItem) :
    List WorkItemGroup :=
  root_items.map (fun r =>
    { type := r.type
      icon := r.icon
      items := r.children.filterMap (storeLookup s) })

/-! The Azure DevOps pipeline of Work.get_items_with_details. -/

/-- The external platform client consumed by the Azure DevOps branch of
Work.get_items_with_details: the initial detailed query and the single-item
fetch. -/
structure DevOpsClient where
  workItemsWithDetails : Except String (List HierarchicalWorkItem)
  workItemById : Int → Except String HierarchicalWorkItem

/-- The add phase of work.py lines 160-161: `get_item_by_id(item.id)` is
dispatched for every initially fetched item and each result is inserted via
`add`; insertion is keyed by the fetched item's own id, so the list order is
a sound linearization of the gather. -/
def addAll (fetch : Int → Except String HierarchicalWorkItem) :
    Store → List Int → Except String Store
  | s, [] => .ok s
  | s, k :: rest =>
    match get_item_by_id fetch s k with
    | .error e => .error e
    | .ok (s', _) => addAll fetch s' rest

/-- The Azure DevOps branch of Work.get_items_with_details (work.py lines
141-194): fetch the flat item list, re-fetch and add each item by id,
resolve parents, build the "Other" bucket, optionally run the summarization
pass, then build the hierarchy (root items and by_type groups).  Any failure
of a dispatched fetch or summarization propagates; `none` means the parent
walk ran out of fuel. -/
def get_items_with_details_azure (client : DevOpsClient) (fuel : Nat)
    (item_summary : Bool) (item_prompt : String)
    (summarise : String → Except String String) :
    Except String (Option (Store × List HierarchicalWorkItem × List WorkItemGroup)) :=
  match client.workItemsWithDetails with
  | .error e => .error e
  | .ok items =>
    let item_ids := items.map (·.id)
    match addAll client.workItemById [] item_ids with
    | .error e => .error e
    | .ok s0 =>
      match fetch_parents Platform.AZURE_DEVOPS client.workItemById fuel s0 with
      | .error e => .error e
      | .ok none => .ok none
      | .ok (some s1) =>
        let s2 := create_other_parent Platform.AZURE_DEVOPS s1
        match summaryPass item_summary item_prompt summarise s2 item_ids with
        | .error e => .error e
        | .ok s3 => .ok (some (s3, hierarchyRootItems s3, hierarchyByType s3))

/-! The commit adapter and Work.generate_ordered_work_items. -/

/-- Icon URL used for commit items and the Commit group (work.py lines 211
and 290). -/
def commitIconUrl : String :=
  "https://raw.githubusercontent.com/Hankanman/Changelog-Weaver/refs/heads/main/assets/commit-icon.svg"

/-- Work._convert_commit_to_work_item (work.py lines 196-219).  `pyHash`
models Python's builtin `hash` on strings: an arbitrary but fixed function
of the commit sha for the duration of a run. -/
def convert_commit_to_work_item (pyHash : String → Int) (commit : CommitInfo) :
    HierarchicalWorkItem :=
  { id := pyHash commit.sha
    type := "Commit"
    state := "N/A"
    title := commit.message
    icon := commitIconUrl
    root := false
    orphan := true
    url := commit.url
    sha := some commit.sha
    author := some commit.author
    date := some commit.date
    children := [] }

/-- The Commit group assembled by work.py lines 285-292. -/
def mkCommitsGroup (pyHash : String → Int) (commits : List CommitInfo) :
    WorkItemGroup :=
  { type := "Commit"
    icon := commitIconUrl
    items := commits.map (convert_commit_to_work_item pyHash) }

/-- Work.generate_ordered_work_items (work.py lines 266-298), starting from
an already computed by_type list (the preceding `if not self.by_type` refresh
recomputes it through get_items_with_details): when the include-commits flag
is set and no "Commit" group exists yet, fetch the commit list (`getCommits`
is the client oracle; a raised exception propagates) and append the Commit
group; otherwise return the group list unchanged. -/
def generate_ordered_work_items (pyHash : String → Int)
    (include_commits : Bool) (by_type : List WorkItemGroup)
    (getCommits : Except String (List CommitInfo)) :
    Except String (List WorkItemGroup) :=
  if include_commits && !(by_type.any (fun g => g.type == "Commit")) then
    match getCommits with
    | .error e => .error e
    | .ok commits => .ok (by_type ++ [mkCommitsGroup pyHash commits])
  else .ok by_type

/-! Predicates used by the correctness statements. -/

/-- The Store of `s'` extends the Store of `s` key-wise (adds never remove or
re-key bindings). -/
def storeMono (s s' : Store) : Prop :=
  ∀ k, storeContains s k = true → storeContains s' k = true

/-- An item's declared parent is resolved in the Store: either it has no
parent (identity 0) or the parent identity is a Store key. -/
def closedIn (s : Store) (it : HierarchicalWorkItem) : Prop :=
  it.parent_id = 0 ∨ storeContains s it.parent_id = true

/-- The fetch assumption of claim C1: every single-item fetch for a requested
identity succeeds and returns an item carrying that identity. -/
def HonestClient (fetch : Int → Except String HierarchicalWorkItem) : Prop :=
  ∀ k, ∃ it, fetch k = .ok it ∧ it.id = k

/-! Concrete inputs used by witnesses and counterexamples. -/

/-- A minimal non-root, non-orphan work item for concrete evaluations. -/
def plainItem (k : Int) (ty : String) : HierarchicalWorkItem :=
  { id := k, type := ty, state := "", title := "", icon := "",
    root := false, orphan := false }

/-- Concrete duplicate-insertion payloads for the C2 witness. -/
def c2p1 : HierarchicalWorkItem := { plainItem 7 "Bug" with title := "first" }

/-- Second payload with the same identity but a different title. -/
def c2p2 : HierarchicalWorkItem := { plainItem 7 "Bug" with title := "second" }

/-- Concrete orphaned item for the C3 witness. -/
def c3orphan : HierarchicalWorkItem :=
  { plainItem 5 "Task" with orphan := true, parent_id := 9, title := "stray" }

/-- Store containing one orphaned item. -/
def c3store : Store := [(5, c3orphan)]

/-- Concrete orphaned item for the C10 witness. -/
def c10orphan : HierarchicalWorkItem :=
  { plainItem 6 "Bug" with
    orphan := true
    parent_id := 4
    title := "lost"
    children := [11] }

/-- A non-orphaned bystander item for the C10 witness. -/
def c10keeper : HierarchicalWorkItem := { plainItem 8 "Feature" with root := true }

/-- Store with one orphan and one bystander. -/
def c10store : Store := [(6, c10orphan), (8, c10keeper)]

/-- Root items with a duplicated type for the C4 counterexample. -/
def c4bug1 : HierarchicalWorkItem := { plainItem 1 "Bug" with root := true }

/-- Second root of the same type. -/
def c4bug2 : HierarchicalWorkItem := { plainItem 2 "Bug" with root := true }

/-- Root of a second type. -/
def c4feat : HierarchicalWorkItem := { plainItem 3 "Feature" with root := true }

/-- Encounter-ordered root list of types Bug, Bug, Feature. -/
def c4roots : List HierarchicalWorkItem := [c4bug1, c4bug2, c4feat]

/-- Store holding the three roots, for the C4 witness. -/
def c4store : Store := [(1, c4bug1), (2, c4bug2), (3, c4feat)]

/-- The "Bug" group the spec-modelled Hierarchy builder produces on
`c4store`. -/
def c4bugGroup : WorkItemGroup :=
  { type := "Bug", icon := "", items := [c4bug1, c4bug2] }

/-- Initially fetched item whose parent must be resolved, for C5. -/
def c5A : HierarchicalWorkItem :=
  { plainItem 1 "Task" with title := "child", parent_id := 2 }

/-- The parent item that only enters the Store through parent resolution. -/
def c5B : HierarchicalWorkItem :=
  { plainItem 2 "Feature" with title := "parent", root := true }

/-- Client returning `c5A` from the detailed query and resolving ids 1, 2. -/
def c5client : DevOpsClient :=
  { workItemsWithDetails := .ok [c5A]
    workItemById := fun k =>
      if k = 1 then .ok c5A else if k = 2 then .ok c5B else .error "missing" }

/-- A summarizer that succeeds on every prompt. -/
def c5summarise : String → Except String String := fun _ => .ok "S"

/-- The Store produced by the C5 pipeline run: the initially fetched item is
summarized, the fetched parent is not. -/
def c5store : Store := [(1, { c5A with summary := some "S" }), (2, c5B)]

/-- Initially fetched item whose parent fetch will fail, for C6. -/
def c6A : HierarchicalWorkItem :=
  { plainItem 1 "Task" with title := "child", parent_id := 2 }

/-- Client whose single-item fetch fails for every identity but 1. -/
def c6client : DevOpsClient :=
  { workItemsWithDetails := .ok [c6A]
    workItemById := fun k => if k = 1 then .ok c6A else .error "boom" }

/-- A commit-typed work item, for C7. -/
def c7item : HierarchicalWorkItem := plainItem 9 "Commit"

/-- Stand-in for Python's string hash in concrete runs. -/
def c8hash : String → Int := fun s => (s.length : Int)

/-- A non-commit group already present in by_type, for C8. -/
def c8bugGroup : WorkItemGroup := { type := "Bug", icon := "", items := [] }

/-- A concrete commit record. -/
def c8commit : CommitInfo :=
  { sha := "abc123", message := "fix crash", author := "dev",
    date := "2024-01-01", url := "https://example.test/c/abc123" }

/-- Honest client for the C1 witness: every fetch succeeds and returns a
parentless item carrying the requested identity. -/
def c1fetch : Int → Except String HierarchicalWorkItem :=
  fun k => .ok (plainItem k "Task")

/-- Initial item whose parent (identity 3) is missing from the Store. -/
def c1start : HierarchicalWorkItem := { plainItem 1 "Task" with parent_id := 3 }

/-- Initial Store for the C1 witness. -/
def c1store : Store := [(1, c1start)]

/-- The Store after parent resolution: the missing parent has been fetched
and inserted. -/
def c1storeAfter : Store := [(1, c1start), (3, plainItem 3 "Task")]

/-! Claim C2: idempotent insertion. -/

/-- Claim C2: for two payloads carrying the same identity `k` absent from the
Store, adding the first and then the second leaves the Store entry for `k`
equal to the entry created from the first payload; the second call returns
that existing entry and does not change the Store. -/
theorem add_duplicate_id (s : Store) (k : Int)
    (p1 p2 : HierarchicalWorkItem) (h1 : p1.id = k) (h2 : p2.id = k)
    (habs : storeLookup s k = none) :
    add (add s p1).1 p2 = ((add s p1).1, p1) ∧
    storeLookup (add (add s p1).1 p2).1 k = some p1 := by
  subst h1
  have habs' : storeLookup s p1.id = none := habs
  have hfirst : add s p1 = (s ++ [(p1.id, p1)], p1) := by
    unfold add; rw [habs']
  have hlook : storeLookup (s ++ [(p1.id, p1)]) p2.id = some p1 := by
    rw [h2]; exact storeLookup_append_self p1 habs'
  have hsecond : add (s ++ [(p1.id, p1)]) p2 = (s ++ [(p1.id, p1)], p1) := by
    unfold add; rw [h2] at hlook ⊢; rw [hlook]
  refine ⟨?_, ?_⟩
  · rw [hfirst, hsecond]
  · rw [hfirst, hsecond]
    exact storeLookup_append_self p1 habs'

/-- Witness for C2 at a concrete Store and payload pair. -/
theorem add_duplicate_id_witness :
    add (add [] c2p1).1 c2p2 = ((add [] c2p1).1, c2p1) ∧
    storeLookup (add (add [] c2p1).1 c2p2).1 7 = some c2p1 :=
  add_duplicate_id [] 7 c2p1 c2p2 rfl rfl rfl

/-! Claim C9: the commit adapter. -/

/-- Claim C9: for every CommitRecord, the commit adapter produces an item
whose identity is the hash of the commit sha (a fixed function of the hash
string), with type "Commit", title the commit message, state "N/A",
root false, orphan true and no children. -/
theorem convert_commit_fields (pyHash : String → Int) (c : CommitInfo) :
    (convert_commit_to_work_item pyHash c).id = pyHash c.sha ∧
    (convert_commit_to_work_item pyHash c).type = "Commit" ∧
    (convert_commit_to_work_item pyHash c).title = c.message ∧
    (convert_commit_to_work_item pyHash c).state = "N/A" ∧
    (convert_commit_to_work_item pyHash c).root = false ∧
    (convert_commit_to_work_item pyHash c).orphan = true ∧
    (convert_commit_to_work_item pyHash c).children = [] :=
  ⟨rfl, rfl, rfl, rfl, rfl, rfl, rfl⟩

/-! Claim C7: commit isolation from summarization. -/

/-- Claim C7: a work item whose type is "commit" case-insensitively is
returned unchanged by summarize_work_item for every summarizer oracle (so
the summarizer is never consulted), and the summarization candidate list of
get_items_with_details never contains such an item. -/
theorem commit_items_never_summarized (item_summary : Bool)
    (item_prompt : String) (wi : HierarchicalWorkItem)
    (hw : pyLower wi.type = "commit") :
    (∀ summarise, summarize_work_item item_summary item_prompt summarise wi = .ok wi) ∧
    (∀ s item_ids, wi ∉ summaryCandidates s item_ids) := by
  constructor
  · intro summarise
    unfold summarize_work_item
    simp [hw]
  · intro s item_ids hmem
    have hfilter := (List.mem_filter.mp hmem).2
    simp [Bool.and_eq_true, bne_iff_ne, hw] at hfilter

/-- Witness for C7 at a concrete commit item. -/
theorem commit_items_never_summarized_witness :
    (∀ summarise, summarize_work_item true "prompt" summarise c7item = .ok c7item) ∧
    (∀ s item_ids, c7item ∉ summaryCandidates s item_ids) :=
  commit_items_never_summarized true "prompt" c7item (by decide)

/-! Claim C8: the Commit group gate of generate_ordered_work_items. -/

/-- Claim C8: generate_ordered_work_items appends the Commit group exactly
when the include-commits flag is set and no "Commit" group exists yet, and
never duplicates a "Commit" group. -/
theorem generate_ordered_commit_gate (pyHash : String → Int)
    (include_commits : Bool) (by_type : List WorkItemGroup)
    (commits : List CommitInfo) :
    (include_commits = true ∧ by_type.any (fun g => g.type == "Commit") = false →
      generate_ordered_work_items pyHash include_commits by_type (.ok commits) =
        .ok (by_type ++ [mkCommitsGroup pyHash commits])) ∧
    (include_commits = false ∨ by_type.any (fun g => g.type == "Commit") = true →
      generate_ordered_work_items pyHash include_commits by_type (.ok commits) =
        .ok by_type) ∧
    (∀ r, generate_ordered_work_items pyHash include_commits by_type (.ok commits) = .ok r →
      by_type.countP (fun g => g.type == "Commit") ≤ 1 →
      r.countP (fun g => g.type == "Commit") ≤ 1) := by
  refine ⟨?_, ?_, ?_⟩
  · rintro ⟨hic, hno⟩
    unfold generate_ordered_work_items
    simp [hic, hno]
  · intro h
    unfold generate_ordered_work_items
    rcases h with h | h
    · simp [h]
    · simp [h]
  · intro r hr hcount
    unfold generate_ordered_work_items at hr
    by_cases hcond :
        (include_commits && !(by_type.any (fun g => g.type == "Commit"))) = true
    · rw [if_pos hcond] at hr
      have hno : by_type.any (fun g => g.type == "Commit") = false := by
        rcases Bool.and_eq_true _ _ |>.mp hcond with ⟨_, hnot⟩
        simpa using hnot
      have hzero : by_type.countP (fun g => g.type == "Commit") = 0 := by
        rw [List.countP_eq_zero]
        intro g hg
        have := List.any_eq_false.mp hno g hg
        simpa using this
      have hr' : r = by_type ++ [mkCommitsGroup pyHash commits] := by
        simpa using hr.symm
      subst hr'
      rw [List.countP_append, hzero]
      simp [mkCommitsGroup, List.countP_cons]
    · rw [if_neg hcond] at hr
      have hr' : r = by_type := by simpa using hr.symm
      subst hr'
      exact hcount

/-- Witness for C8: with the flag on and only a Bug group present, the
Commit group is appended. -/
theorem generate_ordered_commit_gate_witness :
    generate_ordered_work_items c8hash true [c8bugGroup] (.ok [c8commit]) =
      .ok ([c8bugGroup] ++ [mkCommitsGroup c8hash [c8commit]]) :=
  (generate_ordered_commit_gate c8hash true [c8bugGroup] [c8commit]).1
    ⟨rfl, by decide⟩

/-! Claim C5: the summarization candidate set. -/

/-- Counterexample for C5: in a full Azure DevOps pipeline run with
summarization enabled and a summarizer that succeeds on every prompt, the
fetched parent (identity 2, type "Feature") is in the final Store and is not
commit-typed, yet it is not a summarization candidate and its summary stays
unset, while the initially fetched item (identity 1) is summarized — the
pass does not cover every non-Commit Store item. -/
theorem summarization_misses_fetched_parent :
    get_items_with_details_azure c5client 5 true "p" c5summarise =
      .ok (some (c5store, hierarchyRootItems c5store, hierarchyByType c5store)) ∧
    c5B ∈ storeValues c5store ∧
    pyLower c5B.type ≠ "commit" ∧
    c5B ∉ summaryCandidates c5store [1] ∧
    storeLookup c5store 2 = some c5B ∧
    c5B.summary = none ∧
    (storeLookup c5store 1).map (·.summary) = some (some "S") := by
  refine ⟨by rfl, by decide, by decide, by decide, by decide, by decide, by decide⟩

/-- Claim C5 as amended: the summarization candidate list dispatched by
get_items_with_details consists of exactly the Store items whose id is among
the initially fetched item_ids and whose type is not "commit"
case-insensitively. -/
theorem summaryCandidates_mem_iff (s : Store) (item_ids : List Int)
    (it : HierarchicalWorkItem) :
    it ∈ summaryCandidates s item_ids ↔
      (it ∈ storeValues s ∧ it.id ∈ item_ids ∧ pyLower it.type ≠ "commit") := by
  unfold summaryCandidates
  simp [List.mem_filter, Bool.and_eq_true, bne_iff_ne, List.elem_iff]

/-! Claim C4: shape of the group list. -/

theorem distinctFirstSeen_nodup (l : List String) :
    (distinctFirstSeen l).Nodup := by
  induction l with
  | nil => simp [distinctFirstSeen]
  | cons t rest ih =>
    unfold distinctFirstSeen
    rw [List.nodup_cons]
    constructor
    · intro hmem
      have := (List.mem_filter.mp hmem).2
      simp at this
    · exact List.Nodup.filter _ ih

/-- Counterexample for C4: on the GitHub branch of the grouping step, roots
of types Bug, Bug, Feature (in that encounter order) yield three groups of
types Bug, Bug, Feature — not two groups, and not one group per distinct
type. -/
theorem github_groups_duplicate_types :
    (githubByType [] c4roots).map WorkItemGroup.type = ["Bug", "Bug", "Feature"] ∧
    (githubByType [] c4roots).length = 3 ∧
    (githubByType [] c4roots).length ≠ 2 := by
  refine ⟨by decide, by decide, by decide⟩

/-- Claim C4 as amended: the GitHub branch emits one group per root item in
encounter order (so duplicated root types yield duplicated groups), while
the Hierarchy builder of the Azure DevOps branch (modelled from the spec)
emits exactly one group per distinct root type in first-seen order, each
listing that type's roots in their original order. -/
theorem grouping_shape (s : Store) (root_items : List HierarchicalWorkItem) :
    ((githubByType s root_items).map WorkItemGroup.type =
      root_items.map HierarchicalWorkItem.type) ∧
    ((hierarchyByType s).map WorkItemGroup.type =
      distinctFirstSeen ((hierarchyRootItems s).map HierarchicalWorkItem.type)) ∧
    ((hierarchyByType s).map WorkItemGroup.type).Nodup ∧
    (∀ g ∈ hierarchyByType s,
      g.items = (hierarchyRootItems s).filter (fun r => r.type == g.type)) := by
  have h2 : (hierarchyByType s).map WorkItemGroup.type =
      distinctFirstSeen ((hierarchyRootItems s).map HierarchicalWorkItem.type) := by
    unfold hierarchyByType
    rw [List.map_map]
    exact List.map_id _
  refine ⟨?_, h2, ?_, ?_⟩
  · unfold githubByType
    rw [List.map_map]
    rfl
  · rw [h2]
    exact distinctFirstSeen_nodup _
  · intro g hg
    unfold hierarchyByType at hg
    obtain ⟨t, _, rfl⟩ := List.mem_map.mp hg
    rfl

/-- Witness for C4 as amended, at the Bug, Bug, Feature Store: the "Bug"
group of the spec-modelled Hierarchy builder carries exactly the two Bug
roots in encounter order. -/
theorem grouping_shape_witness :
    c4bugGroup ∈ hierarchyByType c4store ∧
    c4bugGroup.items =
      (hierarchyRootItems c4store).filter (fun r => r.type == c4bugGroup.type) :=
  ⟨by decide, (grouping_shape c4store []).2.2.2 c4bugGroup (by decide)⟩

/-! Claims C3 and C10: the orphan bucket. -/

theorem reparentAll_lookup_not_mem (ids : List Int) (s : Store) (k : Int)
    (h : k ∉ ids) :
    storeLookup (reparentAll s ids) k = storeLookup s k := by
  induction ids generalizing s with
  | nil => rfl
  | cons i rest ih =>
    have hk : k ≠ i := fun he => h (he ▸ List.mem_cons_self i rest)
    unfold reparentAll
    rw [ih _ (fun hm => h (List.mem_cons_of_mem _ hm)),
      storeLookup_modify_ne _ _ hk]

theorem reparentAll_lookup_mem (ids : List Int) (hnd : ids.Nodup) (s : Store)
    (k : Int) (h : k ∈ ids) :
    storeLookup (reparentAll s ids) k = (storeLookup s k).map setParentZero := by
  induction ids generalizing s with
  | nil => simp at h
  | cons i rest ih =>
    unfold reparentAll
    rcases List.mem_cons.mp h with rfl | hmem
    · have hnot : k ∉ rest := (List.nodup_cons.mp hnd).1
      rw [reparentAll_lookup_not_mem rest _ k hnot, storeLookup_modify_self]
    · have hk : k ≠ i := fun he => (List.nodup_cons.mp hnd).1 (he ▸ hmem)
      rw [ih (List.nodup_cons.mp hnd).2 _ hmem, storeLookup_modify_ne _ _ hk]

theorem storeValues_ids_nodup {s : Store} (hwf : StoreWF s) :
    ((storeValues s).map (·.id)).Nodup := by
  have heq : (storeValues s).map (·.id) = s.map Prod.fst := by
    unfold storeValues
    rw [List.map_map]
    exact List.map_congr_left (fun p hp => hwf.2 p hp)
  rw [heq]
  exact hwf.1

theorem orphanedItems_ids_nodup {s : Store} (hwf : StoreWF s) :
    ((orphanedItems s).map (·.id)).Nodup := by
  have hsub : List.Sublist ((orphanedItems s).map (·.id))
      ((storeValues s).map (·.id)) :=
    (List.filter_sublist _).map _
  exact (storeValues_ids_nodup hwf).sublist hsub

theorem orphanedItems_facts {s : Store} {it : HierarchicalWorkItem}
    (h : it ∈ orphanedItems s) :
    it ∈ storeValues s ∧ it.orphan = true ∧ it.id ≠ 0 := by
  obtain ⟨hval, hcond⟩ := List.mem_filter.mp h
  simp [Bool.and_eq_true, bne_iff_ne] at hcond
  exact ⟨hval, hcond.1, hcond.2⟩

theorem orphanedItems_zero_not_mem (s : Store) :
    (0 : Int) ∉ (orphanedItems s).map (·.id) := by
  intro hmem
  obtain ⟨it, hit, hid⟩ := List.mem_map.mp hmem
  exact (orphanedItems_facts hit).2.2 hid

/-- Claim C3: on Azure DevOps, when the orphan set is non-empty, the orphan
bucket step stores under identity 0 a node of type "Other", title "Other",
root true, orphan false whose children are exactly the orphaned items, and
reassigns each orphaned item's parent identity to 0. -/
theorem create_other_parent_bucket (s : Store) (hwf : StoreWF s)
    (hne : orphanedItems s ≠ []) :
    storeLookup (create_other_parent Platform.AZURE_DEVOPS s) 0 =
      some { otherParentBase with children := (orphanedItems s).map (·.id) } ∧
    ∀ it ∈ orphanedItems s,
      storeLookup (create_other_parent Platform.AZURE_DEVOPS s) it.id =
        some { it with parent_id := 0 } := by
  have heq : create_other_parent Platform.AZURE_DEVOPS s =
      reparentAll
        (storeSet s 0
          { otherParentBase with children := (orphanedItems s).map (·.id) })
        ((orphanedItems s).map (·.id)) := by
    unfold create_other_parent
    rw [if_neg (by decide : Platform.AZURE_DEVOPS ≠ Platform.GITHUB), if_neg hne]
  constructor
  · rw [heq, reparentAll_lookup_not_mem _ _ _ (orphanedItems_zero_not_mem s),
      storeLookup_set_self]
  · intro it hit
    rw [heq,
      reparentAll_lookup_mem _ (orphanedItems_ids_nodup hwf) _ _
        (List.mem_map_of_mem _ hit),
      storeLookup_set_ne _ _ (orphanedItems_facts hit).2.2,
      storeLookup_value_of_mem hwf (orphanedItems_facts hit).1]
    rfl

/-- Witness for C3 at a concrete one-orphan Store. -/
theorem create_other_parent_bucket_witness :
    storeLookup (create_other_parent Platform.AZURE_DEVOPS c3store) 0 =
      some { otherParentBase with children := (orphanedItems c3store).map (·.id) } ∧
    ∀ it ∈ orphanedItems c3store,
      storeLookup (create_other_parent Platform.AZURE_DEVOPS c3store) it.id =
        some { it with parent_id := 0 } :=
  create_other_parent_bucket c3store (by decide) (by decide)

/-- Claim C10: reparenting a bucketed orphan changes only its parent_id (its
orphan flag stays true and its type, title, state and children are
untouched), every Store entry other than the bucket node and the orphans is
unchanged, and an empty orphan set leaves the Store entirely unchanged. -/
theorem create_other_parent_frame (s : Store) (hwf : StoreWF s) :
    (orphanedItems s = [] → create_other_parent Platform.AZURE_DEVOPS s = s) ∧
    (∀ it ∈ orphanedItems s,
      storeLookup (create_other_parent Platform.AZURE_DEVOPS s) it.id =
        some { it with parent_id := 0 } ∧
      it.orphan = true ∧
      ({ it with parent_id := 0 } : HierarchicalWorkItem).orphan = it.orphan ∧
      ({ it with parent_id := 0 } : HierarchicalWorkItem).type = it.type ∧
      ({ it with parent_id := 0 } : HierarchicalWorkItem).title = it.title ∧
      ({ it with parent_id := 0 } : HierarchicalWorkItem).state = it.state ∧
      ({ it with parent_id := 0 } : HierarchicalWorkItem).children = it.children) ∧
    (∀ k, k ≠ 0 → k ∉ (orphanedItems s).map (·.id) →
      storeLookup (create_other_parent Platform.AZURE_DEVOPS s) k =
        storeLookup s k) := by
  refine ⟨?_, ?_, ?_⟩
  · intro hempty
    unfold create_other_parent
    rw [if_neg (by decide : Platform.AZURE_DEVOPS ≠ Platform.GITHUB),
      if_pos hempty]
  · intro it hit
    have hne : orphanedItems s ≠ [] := by
      intro h
      rw [h] at hit
      simp at hit
    have heq : create_other_parent Platform.AZURE_DEVOPS s =
        reparentAll
          (storeSet s 0
            { otherParentBase with children := (orphanedItems s).map (·.id) })
          ((orphanedItems s).map (·.id)) := by
      unfold create_other_parent
      rw [if_neg (by decide : Platform.AZURE_DEVOPS ≠ Platform.GITHUB),
        if_neg hne]
    refine ⟨?_, (orphanedItems_facts hit).2.1, rfl, rfl, rfl, rfl, rfl⟩
    rw [heq,
      reparentAll_lookup_mem _ (orphanedItems_ids_nodup hwf) _ _
        (List.mem_map_of_mem _ hit),
      storeLookup_set_ne _ _ (orphanedItems_facts hit).2.2,
      storeLookup_value_of_mem hwf (orphanedItems_facts hit).1]
    rfl
  · intro k hk0 hknot
    by_cases hem : orphanedItems s = []
    · unfold create_other_parent
      rw [if_neg (by decide : Platform.AZURE_DEVOPS ≠ Platform.GITHUB),
        if_pos hem]
    · unfold create_other_parent
      rw [if_neg (by decide : Platform.AZURE_DEVOPS ≠ Platform.GITHUB),
        if_neg hem, reparentAll_lookup_not_mem _ _ _ hknot,
        storeLookup_set_ne _ _ hk0]

/-- Witness for C10 at a Store with one orphan and one bystander. -/
theorem create_other_parent_frame_witness :
    (orphanedItems c10store = [] →
      create_other_parent Platform.AZURE_DEVOPS c10store = c10store) ∧
    (∀ it ∈ orphanedItems c10store,
      storeLookup (create_other_parent Platform.AZURE_DEVOPS c10store) it.id =
        some { it with parent_id := 0 } ∧
      it.orphan = true ∧
      ({ it with parent_id := 0 } : HierarchicalWorkItem).orphan = it.orphan ∧
      ({ it with parent_id := 0 } : HierarchicalWorkItem).type = it.type ∧
      ({ it with parent_id := 0 } : HierarchicalWorkItem).title = it.title ∧
      ({ it with parent_id := 0 } : HierarchicalWorkItem).state = it.state ∧
      ({ it with parent_id := 0 } : HierarchicalWorkItem).children = it.children) ∧
    (∀ k, k ≠ 0 → k ∉ (orphanedItems c10store).map (·.id) →
      storeLookup (create_other_parent Platform.AZURE_DEVOPS c10store) k =
        storeLookup c10store k) :=
  create_other_parent_frame c10store (by decide)

/-! Claim C6: fail-fast error propagation through get_items_with_details. -/

/-- Claim C6: when the parent-resolution step fails (a single-item fetch
dispatched by _fetch_parents returns an error), get_items_with_details
propagates that same error to its caller; its result is the error, so no
group list is produced for the run. -/
theorem details_error_propagation (client : DevOpsClient) (fuel : Nat)
    (item_summary : Bool) (item_prompt : String)
    (summarise : String → Except String String)
    (items : List HierarchicalWorkItem) (s0 : Store) (e : String)
    (hitems : client.workItemsWithDetails = .ok items)
    (hadd : addAll client.workItemById [] (items.map (·.id)) = .ok s0)
    (hfail : fetch_parents Platform.AZURE_DEVOPS client.workItemById fuel s0 =
      .error e) :
    get_items_with_details_azure client fuel item_summary item_prompt summarise =
      .error e := by
  unfold get_items_with_details_azure
  rw [hitems]
  simp only
  rw [hadd]
  simp only
  rw [hfail]

/-- Witness for C6: a client whose fetch of the missing parent (identity 2)
raises aborts the whole aggregation with that error. -/
theorem details_error_propagation_witness :
    get_items_with_details_azure c6client 5 true "p" (fun _ => .ok "S") =
      .error "boom" :=
  details_error_propagation c6client 5 true "p" (fun _ => .ok "S")
    [c6A] [(1, c6A)] "boom" rfl (by rfl) (by rfl)

/-! Claim C1: closure of the Store under parent references. -/

theorem closedIn_mono {s s' : Store} (h : storeMono s s')
    {it : HierarchicalWorkItem} (hc : closedIn s it) : closedIn s' it := by
  rcases hc with h0 | hcc
  · exact Or.inl h0
  · exact Or.inr (h _ hcc)

theorem walkChain_spec {fetch : Int → Except String HierarchicalWorkItem}
    (hf : HonestClient fetch) :
    ∀ (fuel : Nat) (s : Store) (tf : List Int) (cur : HierarchicalWorkItem)
      (s' : Store) (tf' : List Int),
      walkChain fetch fuel s tf cur = .ok (some (s', tf')) →
      storeMono s s' ∧
      (∀ it ∈ storeValues s', it ∈ storeValues s ∨ closedIn s' it) ∧
      closedIn s' cur ∧
      (∀ k ∈ tf', k ∈ tf ∨ storeContains s' k = true) := by
  intro fuel
  induction fuel with
  | zero =>
    intro s tf cur s' tf' h
    simp [walkChain] at h
  | succ n ih =>
    intro s tf cur s' tf' h
    unfold walkChain at h
    by_cases hcond : cur.parent_id ≠ 0 ∧ storeContains s cur.parent_id = false
    · rw [if_pos hcond] at h
      obtain ⟨P, hP, hPid⟩ := hf cur.parent_id
      have hnone : storeLookup s cur.parent_id = none := by
        have hc := hcond.2
        unfold storeContains at hc
        cases hl : storeLookup s cur.parent_id with
        | none => rfl
        | some v => rw [hl] at hc; simp at hc
      have hget : get_item_by_id fetch s cur.parent_id =
          .ok (s ++ [(cur.parent_id, P)], P) := by
        simp [get_item_by_id, add, hP, hPid, hnone]
      rw [hget] at h
      have h' : walkChain fetch n (s ++ [(cur.parent_id, P)])
          (setInsert tf cur.parent_id) P = .ok (some (s', tf')) := h
      obtain ⟨hmono, hnew, hcur, htf⟩ := ih _ _ _ _ _ h'
      have hmid : storeContains (s ++ [(cur.parent_id, P)]) cur.parent_id = true := by
        unfold storeContains
        rw [storeLookup_append_self P hnone]
        rfl
      refine ⟨?_, ?_, ?_, ?_⟩
      · intro k hk
        exact hmono k (storeContains_append _ hk)
      · intro it hit
        rcases hnew it hit with hin | hcl
        · rw [storeValues_append] at hin
          rcases List.mem_append.mp hin with h1 | h1
          · exact Or.inl h1
          · have hP' : it = P := by simpa [storeValues] using h1
            subst hP'
            exact Or.inr hcur
        · exact Or.inr hcl
      · exact Or.inr (hmono _ hmid)
      · intro k hk
        rcases htf k hk with hin | hc
        · unfold setInsert at hin
          by_cases hmem : cur.parent_id ∈ tf
          · rw [if_pos hmem] at hin
            exact Or.inl hin
          · rw [if_neg hmem] at hin
            rcases List.mem_append.mp hin with h1 | h1
            · exact Or.inl h1
            · have hk' : k = cur.parent_id := by simpa using h1
              subst hk'
              exact Or.inr (hmono _ hmid)
        · exact Or.inr hc
    · rw [if_neg hcond] at h
      have hpair : s = s' ∧ tf = tf' := by
        simpa using h
      obtain ⟨h1, h2⟩ := hpair
      subst h1
      subst h2
      refine ⟨fun k hk => hk, fun it hit => Or.inl hit, ?_, fun k hk => Or.inl hk⟩
      rcases not_and_or.mp hcond with h0 | hcc
      · exact Or.inl (not_not.mp h0)
      · cases hb : storeContains s cur.parent_id with
        | false => exact absurd hb hcc
        | true => exact Or.inr hb

theorem fetchParentsLoop_spec {fetch : Int → Except String HierarchicalWorkItem}
    (hf : HonestClient fetch) :
    ∀ (items : List HierarchicalWorkItem) (fuel : Nat) (s : Store)
      (tf : List Int) (s' : Store) (tf' : List Int),
      fetchParentsLoop fetch fuel items s tf = .ok (some (s', tf')) →
      storeMono s s' ∧
      (∀ it ∈ storeValues s', it ∈ storeValues s ∨ closedIn s' it) ∧
      (∀ it ∈ items, closedIn s' it) ∧
      (∀ k ∈ tf', k ∈ tf ∨ storeContains s' k = true) := by
  intro items
  induction items with
  | nil =>
    intro fuel s tf s' tf' h
    unfold fetchParentsLoop at h
    have hpair : s = s' ∧ tf = tf' := by simpa using h
    obtain ⟨h1, h2⟩ := hpair
    subst h1
    subst h2
    exact ⟨fun k hk => hk, fun it hit => Or.inl hit, by simp, fun k hk => Or.inl hk⟩
  | cons item rest ih =>
    intro fuel s tf s' tf' h
    unfold fetchParentsLoop at h
    cases hw : walkChain fetch fuel s tf item with
    | error e => rw [hw] at h; simp at h
    | ok o =>
      cases o with
      | none => rw [hw] at h; simp at h
      | some p =>
        obtain ⟨s1, tf1⟩ := p
        rw [hw] at h
        have h' : fetchParentsLoop fetch fuel rest s1 tf1 = .ok (some (s', tf')) := h
        obtain ⟨m1, n1, c1, t1⟩ := walkChain_spec hf fuel s tf item s1 tf1 hw
        obtain ⟨m2, n2, c2, t2⟩ := ih fuel s1 tf1 s' tf' h'
        refine ⟨fun k hk => m2 k (m1 k hk), ?_, ?_, ?_⟩
        · intro it hit
          rcases n2 it hit with h1 | h1
          · rcases n1 it h1 with h2 | h2
            · exact Or.inl h2
            · exact Or.inr (closedIn_mono m2 h2)
          · exact Or.inr h1
        · intro it hit
          rcases List.mem_cons.mp hit with h1 | h1
          · subst h1
            exact closedIn_mono m2 c1
          · exact c2 it h1
        · intro k hk
          rcases t2 k hk with h1 | h1
          · rcases t1 k h1 with h2 | h2
            · exact Or.inl h2
            · exact Or.inr (m2 k h2)
          · exact Or.inr h1

theorem fetchIds_present {fetch : Int → Except String HierarchicalWorkItem}
    (hf : HonestClient fetch) :
    ∀ (ids : List Int) (s : Store),
      (∀ k ∈ ids, storeContains s k = true) →
      fetchIds fetch s ids = .ok s := by
  intro ids
  induction ids with
  | nil => intro s _; rfl
  | cons k rest ih =>
    intro s hall
    obtain ⟨P, hP, hPid⟩ := hf k
    have hc := hall k (List.mem_cons_self k rest)
    unfold storeContains at hc
    obtain ⟨v, hv⟩ := Option.isSome_iff_exists.mp hc
    have hget : get_item_by_id fetch s k = .ok (s, v) := by
      simp [get_item_by_id, add, hP, hPid, hv]
    unfold fetchIds
    rw [hget]
    exact ih s (fun k' hk' => hall k' (List.mem_cons_of_mem _ hk'))

theorem chunkGo_mem (n : Nat) :
    ∀ (fuel : Nat) (l c : List Int),
      c ∈ chunkGo n fuel l → ∀ k ∈ c, k ∈ l := by
  intro fuel
  induction fuel with
  | zero =>
    intro l c hc
    simp [chunkGo] at hc
  | succ m ih =>
    intro l c hc k hk
    cases l with
    | nil => simp [chunkGo] at hc
    | cons x xs =>
      rw [chunkGo] at hc
      rcases List.mem_cons.mp hc with h1 | h1
      · subst h1
        exact List.take_subset _ _ hk
      · exact List.drop_subset _ _ (ih _ c h1 k hk)

theorem fetchChunks_present {fetch : Int → Except String HierarchicalWorkItem}
    (hf : HonestClient fetch) :
    ∀ (cs : List (List Int)) (s : Store),
      (∀ c ∈ cs, ∀ k ∈ c, storeContains s k = true) →
      fetchChunks fetch s cs = .ok s := by
  intro cs
  induction cs with
  | nil => intro s _; rfl
  | cons c rest ih =>
    intro s hall
    unfold fetchChunks
    rw [fetchIds_present hf c s (hall c (List.mem_cons_self c rest))]
    exact ih s (fun c' hc' => hall c' (List.mem_cons_of_mem _ hc'))

/-- Claim C1: assuming every single-item fetch for a requested identity
succeeds and returns an item carrying that identity, then whenever
_fetch_parents completes, every item in the resulting Store whose parent
identity is non-zero has that parent identity present as a Store key: the
Store is closed under the parent-reference relation. -/
theorem fetch_parents_closure (fetch : Int → Except String HierarchicalWorkItem)
    (fuel : Nat) (s s' : Store) (hf : HonestClient fetch)
    (hrun : fetch_parents Platform.AZURE_DEVOPS fetch fuel s = .ok (some s')) :
    ∀ it ∈ storeValues s', it.parent_id ≠ 0 →
      storeContains s' it.parent_id = true := by
  unfold fetch_parents at hrun
  rw [if_neg (by decide : ¬ Platform.AZURE_DEVOPS ≠ Platform.AZURE_DEVOPS)] at hrun
  cases hloop : fetchParentsLoop fetch fuel (storeValues s) s [] with
  | error e => rw [hloop] at hrun; simp at hrun
  | ok o =>
    cases o with
    | none => rw [hloop] at hrun; simp at hrun
    | some p =>
      obtain ⟨s1, tf⟩ := p
      rw [hloop] at hrun
      obtain ⟨m1, n1, c1, t1⟩ :=
        fetchParentsLoop_spec hf (storeValues s) fuel s [] s1 tf hloop
      have htf : ∀ k ∈ tf, storeContains s1 k = true := by
        intro k hk
        rcases t1 k hk with h1 | h1
        · simp at h1
        · exact h1
      have hchunks : fetchChunks fetch s1 (chunkList batchSize tf) = .ok s1 :=
        fetchChunks_present hf _ s1
          (fun c hc k hk => htf k (chunkGo_mem batchSize _ tf c hc k hk))
      have hrun' : (match fetchChunks fetch s1 (chunkList batchSize tf) with
          | Except.error e => Except.error e
          | Except.ok s2 => Except.ok (some s2)) = Except.ok (some s') := hrun
      rw [hchunks] at hrun'
      have hs : s1 = s' := by simpa using hrun'
      subst hs
      intro it hit hpid
      rcases n1 it hit with h1 | h1
      · rcases c1 it h1 with h0 | hc
        · exact absurd h0 hpid
        · exact hc
      · rcases h1 with h0 | hc
        · exact absurd h0 hpid
        · exact hc

/-- Witness for C1: with an honest always-succeeding client and a Store whose
single item references the missing parent 3, resolution completes and the
closure property holds in the resulting Store. -/
theorem fetch_parents_closure_witness :
    c1start ∈ storeValues c1storeAfter ∧ c1start.parent_id ≠ 0 ∧
    storeContains c1storeAfter c1start.parent_id = true :=
  ⟨by decide, by decide,
    fetch_parents_closure c1fetch 5 c1store c1storeAfter
      (fun k => ⟨plainItem k "Task", rfl, rfl⟩) (by rfl)
      c1start (by decide) (by decide)⟩

end ChangelogWeaver
